import Mathlib

/-!
Shallow embedding of the Order Workflow Engine of `src/src/api/services/order.ts`
(repository ZAPHODh/metamorfosis-server), together with theorems settling the
frozen claims about it.

The data model follows the prisma schema (`model Order`, `model OrderItem`,
`model Product`, `model User`): monetary `Decimal` fields and integer counters
are modelled as `Int`, identifiers as `Nat`, timestamps as `Nat` instants,
optional columns as `Option`.  Each service operation is a state transformer on
a `DB` record; fallible persistence writes return `Option DB`, and the
transaction wrapper restores the initial state when its body fails.
-/

namespace Metamorfosis

/-- Order lifecycle status (prisma enum `OrderStatus`). -/
inductive OrderStatus
  | PENDING
  | PROCESSING
  | SHIPPED
  | DELIVERED
  | CANCELED
deriving DecidableEq

/-- Payment status (prisma enum `PaymentStatus`). -/
inductive PaymentStatus
  | PENDING
  | PAID
  | REFUNDED
  | FAILED
deriving DecidableEq

/-- Inventory-relevant slice of a `Product` row: `stock Int`, `soldCount Int`. -/
structure Product where
  stock : Int
  soldCount : Int
deriving DecidableEq

/-- Customer slice of a `User` row: `name`/`email` (used by the text search of
`getOrders`), `totalSpent Decimal`, `lastPurchase DateTime?`. -/
structure User where
  name : String
  email : String
  totalSpent : Int
  lastPurchase : Option Nat
deriving DecidableEq

/-- An `Order` row (prisma `model Order`), restricted to the columns the
workflow reads or writes. -/
structure Order where
  id : Nat
  orderNumber : String
  userId : Nat
  subtotal : Int
  discountTotal : Int
  shippingTotal : Int
  taxTotal : Int
  total : Int
  status : OrderStatus
  paymentMethod : String
  paymentStatus : PaymentStatus
  notes : Option String
  trackingNumber : Option String
  shippingCarrier : Option String
  estimatedDelivery : Option Nat
  billingAddressId : Nat
  shippingAddressId : Nat
  createdById : Option Nat
  createdAt : Nat
  completedAt : Option Nat
  canceledAt : Option Nat
deriving DecidableEq

/-- An `OrderItem` row (prisma `model OrderItem`). -/
structure OrderItem where
  orderId : Nat
  productId : Nat
  variantId : Option Nat
  quantity : Int
  unitPrice : Int
  discount : Int
  total : Int
  notes : Option String
deriving DecidableEq

/-- One element of `OrderInput.items` (type `OrderItemInput` of
`src/src/interfaces/index.ts`). -/
structure OrderItemInput where
  productId : Nat
  variantId : Option Nat
  quantity : Int
  unitPrice : Int
  discount : Int
  notes : Option String
deriving DecidableEq

/-- The `OrderInput` type of `src/src/interfaces/index.ts`. -/
structure OrderInput where
  userId : Nat
  subtotal : Int
  discountTotal : Int
  shippingTotal : Int
  taxTotal : Int
  total : Int
  status : Option OrderStatus
  paymentMethod : String
  paymentStatus : Option PaymentStatus
  notes : Option String
  billingAddressId : Nat
  shippingAddressId : Nat
  items : List OrderItemInput
  createdById : Option Nat
deriving DecidableEq

/-- The `Partial<OrderInput>` argument of `updateOrder`: every field may be
absent (`undefined` in TypeScript, `none` here). -/
structure OrderUpdateInput where
  subtotal : Option Int
  discountTotal : Option Int
  shippingTotal : Option Int
  taxTotal : Option Int
  total : Option Int
  status : Option OrderStatus
  paymentMethod : Option String
  paymentStatus : Option PaymentStatus
  notes : Option String
  billingAddressId : Option Nat
  shippingAddressId : Option Nat
  items : Option (List OrderItemInput)
deriving DecidableEq

/-- The `OrderStatusUpdate` type of `src/src/interfaces/index.ts`. -/
structure OrderStatusUpdate where
  status : OrderStatus
  trackingNumber : Option String
  shippingCarrier : Option String
  estimatedDelivery : Option Nat
  notes : Option String
deriving DecidableEq

/-- The `OrderFilters` type of `src/src/interfaces/index.ts`.  Date strings are
modelled as parsed `Nat` instants; `sortOrderAsc` encodes `"asc" | "desc"`. -/
structure OrderFilters where
  search : Option String
  status : Option OrderStatus
  startDate : Option Nat
  endDate : Option Nat
  sortBy : String
  sortOrderAsc : Bool
  page : Nat
  limit : Nat
deriving DecidableEq

/-- Database state seen by the workflow: the `Order` and `OrderItem` tables as
lists (in the gateway's enumeration order), the `Product` and `User` tables as
partial maps from id, the set of existing `Address` ids, and the id the next
inserted order receives. -/
structure DB where
  orders : List Order
  orderItems : List OrderItem
  products : Nat → Option Product
  users : Nat → Option User
  addresses : Nat → Bool
  nextOrderId : Nat

/-- Gateway read `order.findUnique({ where: { id } })`. -/
def findOrder (db : DB) (id : Nat) : Option Order :=
  db.orders.find? (fun o => o.id = id)

/-- Gateway write `order.update({ where: { id }, data })`, with the updated row
already computed by the caller. -/
def setOrder (db : DB) (id : Nat) (o : Order) : DB :=
  { db with orders := db.orders.map (fun x => if x.id = id then o else x) }

/-- Gateway read `orderItem.findMany({ where: { orderId } })`. -/
def itemsOf (db : DB) (oid : Nat) : List OrderItem :=
  db.orderItems.filter (fun it => it.orderId = oid)

/-- Gateway write `product.update` applying increments `ds` to `stock` and
`dc` to `soldCount`; fails (foreign-key style) when no product has id `pid`. -/
def productUpdate (db : DB) (pid : Nat) (ds dc : Int) : Option DB :=
  match db.products pid with
  | none => none
  | some p =>
      some { db with
        products := fun i =>
          if i = pid then some { stock := p.stock + ds, soldCount := p.soldCount + dc }
          else db.products i }

/-- Gateway write `user.update` of `createOrder` (order.ts lines 176-184):
increment `totalSpent` by `amount` and set `lastPurchase` to `now`; fails when
the user does not exist. -/
def userPurchaseUpdate (db : DB) (uid : Nat) (amount : Int) (now : Nat) : Option DB :=
  match db.users uid with
  | none => none
  | some u =>
      some { db with
        users := fun i =>
          if i = uid then
            some { u with totalSpent := u.totalSpent + amount, lastPurchase := some now }
          else db.users i }

/-- Modelled from the spec: §4.1 `runTransaction(unitOfWork)` of the Persistence
Gateway (`prisma.$transaction`, an external collaborator whose code is not under
`src/`): the body's writes are executed atomically, and if any step fails all
prior writes of the unit are rolled back, leaving the initial state. -/
def runTransaction {α : Type} (db : DB) (body : DB → Option (DB × α)) : DB × Option α :=
  match body db with
  | some (db', a) => (db', some a)
  | none => (db, none)

/-- The `OrderItem` row inserted for one input line item (the
`tx.orderItem.create` payload of order.ts lines 152-163 and 259-270), including
the computed line total `(unitPrice - discount) * quantity`. -/
def mkOrderItem (oid : Nat) (it : OrderItemInput) : OrderItem :=
  { orderId := oid
    productId := it.productId
    variantId := it.variantId
    quantity := it.quantity
    unitPrice := it.unitPrice
    discount := it.discount
    total := (it.unitPrice - it.discount) * it.quantity
    notes := it.notes }

/-- One iteration of the item loop shared by `createOrder` (lines 151-175) and
the replacement branch of `updateOrder` (lines 258-282): insert the
`OrderItem`, then decrement the product's `stock` and increment its `soldCount`
by the item's quantity. -/
def createItemStep (oid : Nat) (db : DB) (it : OrderItemInput) : Option DB :=
  match db.products it.productId with
  | none => none
  | some _ =>
      let db1 := { db with orderItems := db.orderItems ++ [mkOrderItem oid it] }
      productUpdate db1 it.productId (-it.quantity) it.quantity

/-- The whole item loop: `createItemStep` for each input item in order,
stopping at the first failure. -/
def createItems (oid : Nat) : List OrderItemInput → DB → Option DB
  | [], db => some db
  | it :: rest, db =>
      match createItemStep oid db it with
      | none => none
      | some db' => createItems oid rest db'

/-- The inventory-reversal loop shared by the replacement branch of
`updateOrder` (lines 245-257) and the cancellation branch of
`updateOrderStatus` (lines 353-365): for each stored item, increment the
product's `stock` and decrement its `soldCount` by the item's quantity. -/
def restockItems : List OrderItem → DB → Option DB
  | [], db => some db
  | it :: rest, db =>
      match productUpdate db it.productId it.quantity (-it.quantity) with
      | none => none
      | some db' => restockItems rest db'

/-- The `tx.order.create` step of `createOrder` (lines 133-150): fails when the
owning user or one of the referenced addresses does not exist (foreign keys),
otherwise inserts the order row with defaulted statuses and a fresh id. -/
def orderCreate (db : DB) (data : OrderInput) (orderNumber : String) (now : Nat) :
    Option (DB × Order) :=
  if (db.users data.userId).isSome && db.addresses data.billingAddressId &&
      db.addresses data.shippingAddressId then
    let o : Order :=
      { id := db.nextOrderId
        orderNumber := orderNumber
        userId := data.userId
        subtotal := data.subtotal
        discountTotal := data.discountTotal
        shippingTotal := data.shippingTotal
        taxTotal := data.taxTotal
        total := data.total
        status := data.status.getD .PENDING
        paymentMethod := data.paymentMethod
        paymentStatus := data.paymentStatus.getD .PENDING
        notes := data.notes
        trackingNumber := none
        shippingCarrier := none
        estimatedDelivery := none
        billingAddressId := data.billingAddressId
        shippingAddressId := data.shippingAddressId
        createdById := data.createdById
        createdAt := now
        completedAt := none
        canceledAt := none }
    some ({ db with orders := db.orders ++ [o], nextOrderId := db.nextOrderId + 1 }, o)
  else
    none

/-- The transaction body of `createOrder` (order.ts lines 132-212): insert the
order, run the item loop, update the owning user, re-read the stored order. -/
def createOrderBody (data : OrderInput) (orderNumber : String) (now : Nat) (db : DB) :
    Option (DB × Order) :=
  (orderCreate db data orderNumber now).bind fun step =>
    (createItems step.2.id data.items step.1).bind fun db2 =>
      (userPurchaseUpdate db2 data.userId data.total now).bind fun db3 =>
        (findOrder db3 step.2.id).map fun o' => (db3, o')

/-- `orderService.createOrder` (order.ts lines 130-213).  The generated order
number and the clock reading are passed in as parameters. -/
def createOrder (db : DB) (data : OrderInput) (orderNumber : String) (now : Nat) :
    DB × Option Order :=
  runTransaction db (createOrderBody data orderNumber now)

/-- Scalar field update of `updateOrder` (the `tx.order.update` payload of
lines 225-240): a field provided in the partial input replaces the stored one,
an absent (`undefined`) field leaves it unchanged. -/
def applyOrderUpdate (o : Order) (d : OrderUpdateInput) : Order :=
  { o with
    subtotal := d.subtotal.getD o.subtotal
    discountTotal := d.discountTotal.getD o.discountTotal
    shippingTotal := d.shippingTotal.getD o.shippingTotal
    taxTotal := d.taxTotal.getD o.taxTotal
    total := d.total.getD o.total
    status := d.status.getD o.status
    paymentMethod := d.paymentMethod.getD o.paymentMethod
    paymentStatus := d.paymentStatus.getD o.paymentStatus
    notes := match d.notes with | some n => some n | none => o.notes
    billingAddressId := d.billingAddressId.getD o.billingAddressId
    shippingAddressId := d.shippingAddressId.getD o.shippingAddressId }

/-- The transaction body of `updateOrder` (order.ts lines 224-311):
scalar update; then, only when a non-empty replacement item list was supplied,
delete the order's items, reverse the inventory effect of the previously loaded
items, and insert the new items with their inventory effect; finally re-read. -/
def updateOrderBody (id : Nat) (d : OrderUpdateInput) (existing : Order)
    (existingItems : List OrderItem) (db : DB) : Option (DB × Order) :=
  let db1 := setOrder db id (applyOrderUpdate existing d)
  let afterItems : Option DB :=
    match d.items with
    | some newItems =>
        if newItems.length > 0 then
          let db2 := { db1 with
            orderItems := db1.orderItems.filter (fun it => ¬ (it.orderId = id)) }
          (restockItems existingItems db2).bind fun db3 => createItems id newItems db3
        else some db1
    | none => some db1
  afterItems.bind fun dbf => (findOrder dbf id).map fun o' => (dbf, o')

/-- `orderService.updateOrder` (order.ts lines 215-312): load the order with
its items, return `none` without any write when it does not exist, otherwise
run the update inside a transaction. -/
def updateOrder (db : DB) (id : Nat) (d : OrderUpdateInput) : DB × Option Order :=
  match findOrder db id with
  | none => (db, none)
  | some existing =>
      runTransaction db (updateOrderBody id d existing (itemsOf db id))

/-- Truthiness of an optional JavaScript string: present and non-empty. -/
def truthyStr : Option String → Bool
  | some s => !(s = "")
  | none => false

/-- The `updateData` object of `updateOrderStatus` (order.ts lines 322-336):
always the new status; notes replaced only when defined in the input;
tracking number / carrier only when truthy; estimated delivery when present. -/
def applyStatusFields (o : Order) (d : OrderStatusUpdate) : Order :=
  { o with
    status := d.status
    notes := match d.notes with | some n => some n | none => o.notes
    trackingNumber := if truthyStr d.trackingNumber then d.trackingNumber else o.trackingNumber
    shippingCarrier := if truthyStr d.shippingCarrier then d.shippingCarrier else o.shippingCarrier
    estimatedDelivery :=
      if d.estimatedDelivery.isSome then d.estimatedDelivery else o.estimatedDelivery }

/-- `orderService.updateOrderStatus` (order.ts lines 314-424).  Not-found ids
give `(db, none)` with no write.  A transition into DELIVERED from a different
status additionally stamps `completedAt`.  A transition into CANCELED from a
different status stamps `canceledAt` and, inside one transaction with the
status write, reverses every stored line item's inventory effect.  Every other
call is a plain field update. -/
def updateOrderStatus (db : DB) (id : Nat) (d : OrderStatusUpdate) (now : Nat) :
    DB × Option Order :=
  match findOrder db id with
  | none => (db, none)
  | some existing =>
      let base := applyStatusFields existing d
      if d.status = OrderStatus.DELIVERED ∧ existing.status ≠ OrderStatus.DELIVERED then
        let o' := { base with completedAt := some now }
        (setOrder db id o', some o')
      else if d.status = OrderStatus.CANCELED ∧ existing.status ≠ OrderStatus.CANCELED then
        let o' := { base with canceledAt := some now }
        let orderItems := itemsOf db id
        runTransaction db (fun dbt =>
          let db1 := setOrder dbt id o'
          (restockItems orderItems db1).bind fun db2 =>
            (findOrder db2 id).map fun r => (db2, r))
      else
        (setOrder db id base, some base)

/-- `orderService.getOrderById` (order.ts lines 93-128): read-only lookup. -/
def getOrderById (db : DB) (id : Nat) : Option Order :=
  findOrder db id

/-- Case-insensitive substring test, embedding prisma
`{ contains: s, mode: "insensitive" }`. -/
def strContainsCI (hay needle : String) : Bool :=
  let h := hay.toLower.toList
  let n := needle.toLower.toList
  (List.range (h.length + 1)).any (fun i => n.isPrefixOf (h.drop i))

/-- The `where.OR` text-search clause of `getOrders` (order.ts lines 12-24):
the order number, or the owning user's name or email, contains the term. -/
def searchMatches (db : DB) (s : String) (o : Order) : Bool :=
  strContainsCI o.orderNumber s ||
    (match db.users o.userId with
     | some u => strContainsCI u.name s || strContainsCI u.email s
     | none => false)

/-- The `where` object built by `getOrders` (order.ts lines 10-41), as a
predicate on an order row: a truthy search adds the text clause, a present
status adds an equality clause, and the date clause is built from whichever of
`startDate`/`endDate` are present (`gte`/`lte`). -/
def wherePred (db : DB) (f : OrderFilters) (o : Order) : Bool :=
  (match f.search with
   | some s => if s = "" then true else searchMatches db s o
   | none => true) &&
  (match f.status with
   | some st => decide (o.status = st)
   | none => true) &&
  (match f.startDate, f.endDate with
   | some sd, some ed => decide (sd ≤ o.createdAt) && decide (o.createdAt ≤ ed)
   | some sd, none => decide (sd ≤ o.createdAt)
   | none, some ed => decide (o.createdAt ≤ ed)
   | none, none => true)

/-- Pagination metadata returned by `getOrders` (order.ts lines 84-89). -/
structure PageMeta where
  total : Nat
  page : Nat
  limit : Nat
  pages : Nat
deriving DecidableEq

/-- Result of `getOrders`: the page of rows plus the pagination metadata. -/
structure OrdersPage where
  data : List Order
  pagemeta : PageMeta
deriving DecidableEq

/-- `Math.ceil(a / b)` on non-negative integers with `b > 0`, as computed by
order.ts line 88. -/
def jsCeilDiv (a b : Nat) : Nat :=
  (a + b - 1) / b

/-- `orderService.getOrders` (order.ts lines 7-91): count the rows matching the
filter, then return the page `skip = (page - 1) * limit`, `take = limit` of
them together with the metadata.  The `orderBy` clause only permutes the
matching rows and is modelled as the gateway's enumeration order; the operation
performs no write, so the state is returned unchanged. -/
def getOrders (db : DB) (f : OrderFilters) : DB × OrdersPage :=
  let matched := db.orders.filter (wherePred db f)
  let skip := (f.page - 1) * f.limit
  (db,
   { data := (matched.drop skip).take f.limit
     pagemeta :=
       { total := matched.length
         page := f.page
         limit := f.limit
         pages := jsCeilDiv matched.length f.limit } })

/-- One Order Workflow Engine operation, for reasoning about operation
sequences (claims about invariants across the whole engine). -/
inductive WfOp
  | create (data : OrderInput) (orderNumber : String) (now : Nat)
  | update (id : Nat) (d : OrderUpdateInput)
  | updateStatus (id : Nat) (d : OrderStatusUpdate) (now : Nat)

/-- The state reached after one workflow operation. -/
def applyOp (db : DB) : WfOp → DB
  | .create data nm now => (createOrder db data nm now).1
  | .update id d => (updateOrder db id d).1
  | .updateStatus id d now => (updateOrderStatus db id d now).1

/-- The state reached after a sequence of workflow operations. -/
def applyOps (db : DB) (ops : List WfOp) : DB :=
  ops.foldl applyOp db

/-- Signed quantity that a list of input line items carries against product
`pid` (sum of the quantities of the items referencing it). -/
def qtyOfInputs : List OrderItemInput → Nat → Int
  | [], _ => 0
  | it :: rest, pid =>
      (if it.productId = pid then it.quantity else 0) + qtyOfInputs rest pid

/-- Signed quantity that a list of stored order items carries against product
`pid`. -/
def qtyOfItems : List OrderItem → Nat → Int
  | [], _ => 0
  | it :: rest, pid =>
      (if it.productId = pid then it.quantity else 0) + qtyOfItems rest pid

/-! ### Characterization lemmas for the persistence steps -/

theorem findOrder_id {db : DB} {i : Nat} {o : Order} (h : findOrder db i = some o) :
    o.id = i := by
  have := List.find?_some h
  simpa using this

theorem findOrder_congr_orders {db db' : DB} (h : db'.orders = db.orders) (i : Nat) :
    findOrder db' i = findOrder db i := by
  unfold findOrder
  rw [h]

theorem productUpdate_some {db : DB} {pid : Nat} {ds dc : Int} {db' : DB}
    (h : productUpdate db pid ds dc = some db') :
    ∃ p, db.products pid = some p ∧
      db'.orders = db.orders ∧ db'.orderItems = db.orderItems ∧ db'.users = db.users ∧
      db'.addresses = db.addresses ∧ db'.nextOrderId = db.nextOrderId ∧
      ∀ i, db'.products i =
        if i = pid then some ⟨p.stock + ds, p.soldCount + dc⟩ else db.products i := by
  unfold productUpdate at h
  cases hp : db.products pid with
  | none => rw [hp] at h; exact absurd h (by simp)
  | some p =>
      rw [hp] at h
      refine ⟨p, rfl, ?_⟩
      cases h
      simp

theorem createItemStep_some {oid : Nat} {db : DB} {it : OrderItemInput} {db' : DB}
    (h : createItemStep oid db it = some db') :
    ∃ p, db.products it.productId = some p ∧
      db'.orders = db.orders ∧
      db'.orderItems = db.orderItems ++ [mkOrderItem oid it] ∧
      db'.users = db.users ∧ db'.addresses = db.addresses ∧
      db'.nextOrderId = db.nextOrderId ∧
      ∀ i, db'.products i =
        if i = it.productId then
          some ⟨p.stock - it.quantity, p.soldCount + it.quantity⟩
        else db.products i := by
  unfold createItemStep at h
  cases hp : db.products it.productId with
  | none => rw [hp] at h; exact absurd h (by simp)
  | some p =>
      rw [hp] at h
      obtain ⟨q, hq, ho, hoi, hu, ha, hn, hprod⟩ := productUpdate_some h
      have hq' : db.products it.productId = some q := hq
      rw [hp] at hq'
      injection hq' with hpq
      subst hpq
      refine ⟨p, rfl, by simpa using ho, by simpa using hoi, by simpa using hu,
        by simpa using ha, by simpa using hn, ?_⟩
      intro i
      have := hprod i
      rw [this]
      simp [sub_eq_add_neg]

theorem createItems_some {oid : Nat} :
    ∀ (items : List OrderItemInput) (db db' : DB),
      createItems oid items db = some db' →
        db'.orders = db.orders ∧
        db'.orderItems = db.orderItems ++ items.map (mkOrderItem oid) ∧
        db'.users = db.users ∧ db'.addresses = db.addresses ∧
        db'.nextOrderId = db.nextOrderId ∧
        ∀ pid, db'.products pid =
          (db.products pid).map (fun p =>
            ⟨p.stock - qtyOfInputs items pid, p.soldCount + qtyOfInputs items pid⟩) := by
  intro items
  induction items with
  | nil =>
      intro db db' h
      cases h
      refine ⟨rfl, by simp, rfl, rfl, rfl, ?_⟩
      intro pid
      cases hp : db.products pid with
      | none => simp [qtyOfInputs]
      | some p => simp [qtyOfInputs]
  | cons it rest ih =>
      intro db db' h
      unfold createItems at h
      cases hs : createItemStep oid db it with
      | none => rw [hs] at h; exact absurd h (by simp)
      | some db1 =>
          rw [hs] at h
          obtain ⟨p, hp, ho1, hoi1, hu1, ha1, hn1, hprod1⟩ := createItemStep_some hs
          obtain ⟨ho2, hoi2, hu2, ha2, hn2, hprod2⟩ := ih db1 db' h
          refine ⟨ho2.trans ho1, ?_, hu2.trans hu1, ha2.trans ha1, hn2.trans hn1, ?_⟩
          · rw [hoi2, hoi1]
            simp
          · intro pid
            rw [hprod2 pid, hprod1 pid]
            by_cases heq : pid = it.productId
            · subst heq
              rw [if_pos rfl, hp]
              have hq : qtyOfInputs (it :: rest) it.productId =
                  it.quantity + qtyOfInputs rest it.productId := by
                simp [qtyOfInputs]
              rw [hq]
              simp only [Option.map_some', Option.some.injEq, Product.mk.injEq]
              constructor <;> omega
            · rw [if_neg heq]
              have hne : ¬ (it.productId = pid) := fun hc => heq hc.symm
              have hq : qtyOfInputs (it :: rest) pid = qtyOfInputs rest pid := by
                simp [qtyOfInputs, hne]
              rw [hq]

theorem restockItems_some :
    ∀ (items : List OrderItem) (db db' : DB),
      restockItems items db = some db' →
        db'.orders = db.orders ∧ db'.orderItems = db.orderItems ∧
        db'.users = db.users ∧ db'.addresses = db.addresses ∧
        db'.nextOrderId = db.nextOrderId ∧
        ∀ pid, db'.products pid =
          (db.products pid).map (fun p =>
            ⟨p.stock + qtyOfItems items pid, p.soldCount - qtyOfItems items pid⟩) := by
  intro items
  induction items with
  | nil =>
      intro db db' h
      cases h
      refine ⟨rfl, rfl, rfl, rfl, rfl, ?_⟩
      intro pid
      cases hp : db.products pid with
      | none => simp [qtyOfItems]
      | some p => simp [qtyOfItems]
  | cons it rest ih =>
      intro db db' h
      unfold restockItems at h
      cases hs : productUpdate db it.productId it.quantity (-it.quantity) with
      | none => rw [hs] at h; exact absurd h (by simp)
      | some db1 =>
          rw [hs] at h
          obtain ⟨p, hp, ho1, hoi1, hu1, ha1, hn1, hprod1⟩ := productUpdate_some hs
          obtain ⟨ho2, hoi2, hu2, ha2, hn2, hprod2⟩ := ih db1 db' h
          refine ⟨ho2.trans ho1, hoi2.trans hoi1, hu2.trans hu1, ha2.trans ha1,
            hn2.trans hn1, ?_⟩
          intro pid
          rw [hprod2 pid, hprod1 pid]
          by_cases heq : pid = it.productId
          · subst heq
            rw [if_pos rfl, hp]
            have hq : qtyOfItems (it :: rest) it.productId =
                it.quantity + qtyOfItems rest it.productId := by
              simp [qtyOfItems]
            rw [hq]
            simp only [Option.map_some', Option.some.injEq, Product.mk.injEq]
            constructor <;> omega
          · rw [if_neg heq]
            have hne : ¬ (it.productId = pid) := fun hc => heq hc.symm
            have hq : qtyOfItems (it :: rest) pid = qtyOfItems rest pid := by
              simp [qtyOfItems, hne]
            rw [hq]

theorem userPurchaseUpdate_some {db : DB} {uid : Nat} {amount : Int} {now : Nat} {db' : DB}
    (h : userPurchaseUpdate db uid amount now = some db') :
    ∃ u, db.users uid = some u ∧
      db'.orders = db.orders ∧ db'.orderItems = db.orderItems ∧
      db'.products = db.products ∧ db'.addresses = db.addresses ∧
      db'.nextOrderId = db.nextOrderId ∧
      ∀ i, db'.users i =
        if i = uid then
          some { u with totalSpent := u.totalSpent + amount, lastPurchase := some now }
        else db.users i := by
  unfold userPurchaseUpdate at h
  cases hu : db.users uid with
  | none => rw [hu] at h; exact absurd h (by simp)
  | some u =>
      rw [hu] at h
      refine ⟨u, rfl, ?_⟩
      cases h
      simp

theorem orderCreate_some {db : DB} {data : OrderInput} {nm : String} {now : Nat}
    {db1 : DB} {o : Order} (h : orderCreate db data nm now = some (db1, o)) :
    o.id = db.nextOrderId ∧ o.userId = data.userId ∧ o.total = data.total ∧
    db1.orders = db.orders ++ [o] ∧ db1.orderItems = db.orderItems ∧
    db1.products = db.products ∧ db1.users = db.users ∧
    db1.addresses = db.addresses ∧ db1.nextOrderId = db.nextOrderId + 1 := by
  unfold orderCreate at h
  split at h
  · cases h
    simp
  · exact absurd h (by simp)

theorem runTransaction_none {α : Type} {db : DB} {body : DB → Option (DB × α)}
    (h : (runTransaction db body).2 = none) : (runTransaction db body).1 = db := by
  unfold runTransaction at *
  cases hb : body db with
  | none => simp [hb]
  | some p => rw [hb] at h; simp at h

theorem runTransaction_some {α : Type} {db : DB} {body : DB → Option (DB × α)}
    {db' : DB} {a : α} (h : runTransaction db body = (db', some a)) :
    body db = some (db', a) := by
  unfold runTransaction at h
  cases hb : body db with
  | none => rw [hb] at h; simp at h
  | some p =>
      rw [hb] at h
      obtain ⟨d, x⟩ := p
      simp only [Prod.mk.injEq, Option.some.injEq] at h
      rw [h.1, h.2]

theorem createOrder_some {db : DB} {data : OrderInput} {nm : String} {now : Nat}
    {db' : DB} {o' : Order} (h : createOrder db data nm now = (db', some o')) :
    ∃ db1 o db2 db3,
      orderCreate db data nm now = some (db1, o) ∧
      createItems o.id data.items db1 = some db2 ∧
      userPurchaseUpdate db2 data.userId data.total now = some db3 ∧
      findOrder db3 o.id = some o' ∧ db' = db3 := by
  have hb : createOrderBody data nm now db = some (db', o') := runTransaction_some h
  unfold createOrderBody at hb
  rw [Option.bind_eq_some'] at hb
  obtain ⟨⟨db1, o⟩, hoc, hb⟩ := hb
  rw [Option.bind_eq_some'] at hb
  obtain ⟨db2, hci, hb⟩ := hb
  rw [Option.bind_eq_some'] at hb
  obtain ⟨db3, hup, hb⟩ := hb
  rw [Option.map_eq_some'] at hb
  obtain ⟨r, hfo, hr⟩ := hb
  simp only [Prod.mk.injEq] at hr
  exact ⟨db1, o, db2, db3, hoc, hci, hup, by rw [hfo, hr.2], hr.1.symm⟩

theorem setOrder_fields (db : DB) (id : Nat) (o : Order) :
    (setOrder db id o).orderItems = db.orderItems ∧
    (setOrder db id o).products = db.products ∧
    (setOrder db id o).users = db.users ∧
    (setOrder db id o).addresses = db.addresses ∧
    (setOrder db id o).nextOrderId = db.nextOrderId :=
  ⟨rfl, rfl, rfl, rfl, rfl⟩

theorem find?_map_set {l : List Order} {id : Nat} {o o' : Order}
    (h : l.find? (fun x => x.id = id) = some o) (ho' : o'.id = id) :
    (l.map (fun x => if x.id = id then o' else x)).find? (fun x => x.id = id) =
      some o' := by
  induction l with
  | nil => simp at h
  | cons a rest ih =>
      by_cases ha : a.id = id
      · simp only [List.map_cons, if_pos ha]
        rw [List.find?_cons_of_pos _ (by simpa using ho')]
      · rw [List.find?_cons_of_neg _ (by simpa using ha)] at h
        simp only [List.map_cons, if_neg ha]
        rw [List.find?_cons_of_neg _ (by simpa using ha)]
        exact ih h

theorem findOrder_setOrder {db : DB} {id : Nat} {o o' : Order}
    (h : findOrder db id = some o) (ho' : o'.id = id) :
    findOrder (setOrder db id o') id = some o' := by
  unfold findOrder setOrder at *
  simpa using find?_map_set h ho'

theorem map_shift_zero (x : Option Product) :
    x.map (fun p => (⟨p.stock + 0, p.soldCount - 0⟩ : Product)) = x := by
  cases x <;> simp

theorem qtyOfInputs_of_not_mem {items : List OrderItemInput} {pid : Nat}
    (h : ∀ it ∈ items, it.productId ≠ pid) : qtyOfInputs items pid = 0 := by
  induction items with
  | nil => rfl
  | cons a rest ih =>
      have ha : a.productId ≠ pid := h a (by simp)
      have hrest : ∀ it ∈ rest, it.productId ≠ pid := fun it hit => h it (by simp [hit])
      simp [qtyOfInputs, ha, ih hrest]

theorem qtyOfInputs_nodup {items : List OrderItemInput}
    (h : (items.map (fun it => it.productId)).Nodup) :
    ∀ it ∈ items, qtyOfInputs items it.productId = it.quantity := by
  induction items with
  | nil => intro it hit; simp at hit
  | cons a rest ih =>
      rw [List.map_cons, List.nodup_cons] at h
      intro it hit
      rcases List.mem_cons.mp hit with heq | hmem
      · subst heq
        have hz : qtyOfInputs rest it.productId = 0 := by
          apply qtyOfInputs_of_not_mem
          intro b hb hbeq
          exact h.1 (by rw [← hbeq]; exact List.mem_map_of_mem _ hb)
        simp [qtyOfInputs, hz]
      · have hne : a.productId ≠ it.productId := by
          intro hc
          exact h.1 (by rw [hc]; exact List.mem_map_of_mem _ hmem)
        simp [qtyOfInputs, hne, ih h.2 it hmem]

theorem updateOrder_fst_of_none {db : DB} {id : Nat} {d : OrderUpdateInput}
    (h : (updateOrder db id d).2 = none) : (updateOrder db id d).1 = db := by
  unfold updateOrder at *
  cases hex : findOrder db id with
  | none => simp [hex]
  | some existing =>
      simp only [hex] at h ⊢
      exact runTransaction_none h

theorem updateOrderBody_some {id : Nat} {d : OrderUpdateInput} {existing : Order}
    {existingItems : List OrderItem} {db dbf : DB} {o' : Order}
    (h : updateOrderBody id d existing existingItems db = some (dbf, o')) :
    findOrder dbf id = some o' ∧
    dbf.orders = (setOrder db id (applyOrderUpdate existing d)).orders ∧
    dbf.users = db.users ∧ dbf.addresses = db.addresses ∧
    dbf.nextOrderId = db.nextOrderId ∧
    ((∃ newItems, d.items = some newItems ∧ newItems ≠ [] ∧
        dbf.orderItems =
          db.orderItems.filter (fun it => ¬ (it.orderId = id)) ++
            newItems.map (mkOrderItem id) ∧
        ∀ pid, dbf.products pid = (db.products pid).map (fun p =>
          ⟨p.stock + qtyOfItems existingItems pid - qtyOfInputs newItems pid,
           p.soldCount - qtyOfItems existingItems pid + qtyOfInputs newItems pid⟩))
     ∨ ((d.items = none ∨ d.items = some []) ∧
        dbf.orderItems = db.orderItems ∧ dbf.products = db.products)) := by
  unfold updateOrderBody at h
  rw [Option.bind_eq_some'] at h
  obtain ⟨dbf0, hafter, hmap⟩ := h
  rw [Option.map_eq_some'] at hmap
  obtain ⟨r, hfind, hpair⟩ := hmap
  have hd : dbf0 = dbf := congrArg Prod.fst hpair
  have hr : r = o' := congrArg Prod.snd hpair
  subst hd
  subst hr
  cases hi : d.items with
  | none =>
      rw [hi] at hafter
      have hdbf : dbf0 = setOrder db id (applyOrderUpdate existing d) :=
        (Option.some.injEq _ _ ▸ hafter).symm
      subst hdbf
      exact ⟨hfind, rfl, rfl, rfl, rfl, Or.inr ⟨Or.inl rfl, rfl, rfl⟩⟩
  | some newItems =>
      rw [hi] at hafter
      simp only at hafter
      by_cases hlen : newItems.length > 0
      · rw [if_pos hlen] at hafter
        rw [Option.bind_eq_some'] at hafter
        obtain ⟨db3, hrs, hci⟩ := hafter
        obtain ⟨ho3, hoi3, hu3, ha3, hn3, hprod3⟩ := restockItems_some existingItems _ db3 hrs
        obtain ⟨hof, hoif, huf, haf, hnf, hprodf⟩ := createItems_some newItems db3 dbf0 hci
        refine ⟨hfind, ?_, ?_, ?_, ?_, Or.inl ⟨newItems, rfl, ?_, ?_, ?_⟩⟩
        · exact hof.trans ho3
        · exact huf.trans hu3
        · exact haf.trans ha3
        · exact hnf.trans hn3
        · exact List.ne_nil_of_length_pos hlen
        · have hoi3' : db3.orderItems =
              db.orderItems.filter (fun it => ¬ (it.orderId = id)) := hoi3
          rw [hoif, hoi3']
        · intro pid
          have hprod3' : db3.products pid =
              (db.products pid).map (fun p =>
                ⟨p.stock + qtyOfItems existingItems pid,
                 p.soldCount - qtyOfItems existingItems pid⟩) := hprod3 pid
          rw [hprodf pid, hprod3']
          cases db.products pid <;> simp
      · rw [if_neg hlen] at hafter
        have hnil : newItems = [] :=
          List.eq_nil_of_length_eq_zero (by omega)
        have hdbf : dbf0 = setOrder db id (applyOrderUpdate existing d) :=
          (Option.some.injEq _ _ ▸ hafter).symm
        subst hdbf
        exact ⟨hfind, rfl, rfl, rfl, rfl, Or.inr ⟨Or.inr (by rw [hnil]), rfl, rfl⟩⟩

theorem updateOrder_some {db : DB} {id : Nat} {d : OrderUpdateInput} {db' : DB} {o' : Order}
    (h : updateOrder db id d = (db', some o')) :
    ∃ existing, findOrder db id = some existing ∧
      updateOrderBody id d existing (itemsOf db id) db = some (db', o') := by
  unfold updateOrder at h
  cases hex : findOrder db id with
  | none => rw [hex] at h; simp at h
  | some existing =>
      simp only [hex] at h
      exact ⟨existing, rfl, runTransaction_some h⟩

theorem updateOrder_fst_effects (db : DB) (id : Nat) (d : OrderUpdateInput) :
    (updateOrder db id d).1.users = db.users ∧
    ∀ pid, ∃ q : Int, (updateOrder db id d).1.products pid =
      (db.products pid).map (fun p => ⟨p.stock + q, p.soldCount - q⟩) := by
  cases hres : (updateOrder db id d).2 with
  | none =>
      have h1 : (updateOrder db id d).1 = db := updateOrder_fst_of_none hres
      rw [h1]
      exact ⟨rfl, fun pid => ⟨0, (map_shift_zero _).symm⟩⟩
  | some r =>
      have hco : updateOrder db id d = ((updateOrder db id d).1, some r) := by
        rw [← hres]
      obtain ⟨existing, hex, hbody⟩ := updateOrder_some hco
      obtain ⟨_, _, hu, _, _, hitems⟩ := updateOrderBody_some hbody
      refine ⟨hu, ?_⟩
      intro pid
      rcases hitems with ⟨newItems, _, _, _, hprod⟩ | ⟨_, _, hprod⟩
      · refine ⟨qtyOfItems (itemsOf db id) pid - qtyOfInputs newItems pid, ?_⟩
        rw [hprod pid]
        cases db.products pid with
        | none => simp
        | some p =>
            simp only [Option.map_some', Option.some.injEq, Product.mk.injEq]
            constructor <;> omega
      · refine ⟨0, ?_⟩
        rw [hprod]
        exact (map_shift_zero _).symm

theorem updateOrderStatus_cases (db : DB) (id : Nat) (d : OrderStatusUpdate) (now : Nat) :
    (findOrder db id = none ∧ updateOrderStatus db id d now = (db, none)) ∨
    (∃ existing, findOrder db id = some existing ∧
      ((d.status = OrderStatus.DELIVERED ∧ existing.status ≠ OrderStatus.DELIVERED ∧
         updateOrderStatus db id d now =
           (setOrder db id { applyStatusFields existing d with completedAt := some now },
            some { applyStatusFields existing d with completedAt := some now })) ∨
       (d.status = OrderStatus.CANCELED ∧ existing.status ≠ OrderStatus.CANCELED ∧
         updateOrderStatus db id d now =
           runTransaction db (fun dbt =>
             (restockItems (itemsOf db id)
               (setOrder dbt id
                 { applyStatusFields existing d with canceledAt := some now })).bind fun db2 =>
               (findOrder db2 id).map fun rr => (db2, rr))) ∨
       (¬ (d.status = OrderStatus.DELIVERED ∧ existing.status ≠ OrderStatus.DELIVERED) ∧
        ¬ (d.status = OrderStatus.CANCELED ∧ existing.status ≠ OrderStatus.CANCELED) ∧
        updateOrderStatus db id d now =
          (setOrder db id (applyStatusFields existing d),
           some (applyStatusFields existing d))))) := by
  cases hex : findOrder db id with
  | none =>
      left
      refine ⟨rfl, ?_⟩
      unfold updateOrderStatus
      simp [hex]
  | some existing =>
      right
      refine ⟨existing, rfl, ?_⟩
      by_cases h1 : d.status = OrderStatus.DELIVERED ∧ existing.status ≠ OrderStatus.DELIVERED
      · refine Or.inl ⟨h1.1, h1.2, ?_⟩
        unfold updateOrderStatus
        simp only [hex]
        rw [if_pos h1]
      · by_cases h2 : d.status = OrderStatus.CANCELED ∧ existing.status ≠ OrderStatus.CANCELED
        · refine Or.inr (Or.inl ⟨h2.1, h2.2, ?_⟩)
          unfold updateOrderStatus
          simp only [hex]
          rw [if_neg h1, if_pos h2]
        · refine Or.inr (Or.inr ⟨h1, h2, ?_⟩)
          unfold updateOrderStatus
          simp only [hex]
          rw [if_neg h1, if_neg h2]

theorem updateOrderStatus_fst_effects (db : DB) (id : Nat) (d : OrderStatusUpdate)
    (now : Nat) :
    (updateOrderStatus db id d now).1.users = db.users ∧
    (updateOrderStatus db id d now).1.orderItems = db.orderItems ∧
    ∀ pid, ∃ q : Int, (updateOrderStatus db id d now).1.products pid =
      (db.products pid).map (fun p => ⟨p.stock + q, p.soldCount - q⟩) := by
  rcases updateOrderStatus_cases db id d now with ⟨_, heq⟩ | ⟨existing, hex, hbr⟩
  · rw [heq]
    exact ⟨rfl, rfl, fun pid => ⟨0, (map_shift_zero _).symm⟩⟩
  · rcases hbr with ⟨_, _, heq⟩ | ⟨_, _, heq⟩ | ⟨_, _, heq⟩
    · rw [heq]
      exact ⟨rfl, rfl, fun pid => ⟨0, (map_shift_zero _).symm⟩⟩
    · cases hres : (updateOrderStatus db id d now).2 with
      | none =>
          have h1 : (updateOrderStatus db id d now).1 = db := by
            rw [heq] at hres ⊢
            exact runTransaction_none hres
          rw [h1]
          exact ⟨rfl, rfl, fun pid => ⟨0, (map_shift_zero _).symm⟩⟩
      | some r =>
          have hco : updateOrderStatus db id d now =
              ((updateOrderStatus db id d now).1, some r) := by
            rw [← hres]
          rw [heq] at hco
          have hbody := runTransaction_some hco
          rw [Option.bind_eq_some'] at hbody
          obtain ⟨db2, hrs, hmap⟩ := hbody
          rw [Option.map_eq_some'] at hmap
          obtain ⟨rr, hfind, hpair⟩ := hmap
          rw [Prod.mk.injEq] at hpair
          obtain ⟨hd2, hrr⟩ := hpair
          obtain ⟨ho2, hoi2, hu2, ha2, hn2, hprod2⟩ := restockItems_some _ _ _ hrs
          rw [heq, ← hd2]
          refine ⟨hu2, hoi2, ?_⟩
          intro pid
          exact ⟨qtyOfItems (itemsOf db id) pid, hprod2 pid⟩
    · rw [heq]
      exact ⟨rfl, rfl, fun pid => ⟨0, (map_shift_zero _).symm⟩⟩

theorem createOrder_fst_effects (db : DB) (data : OrderInput) (nm : String) (now : Nat) :
    (createOrder db data nm now).1 = db ∨
    ((∀ pid, ∃ q : Int, (createOrder db data nm now).1.products pid =
        (db.products pid).map (fun p => ⟨p.stock + q, p.soldCount - q⟩)) ∧
     (∀ i, i ≠ data.userId → (createOrder db data nm now).1.users i = db.users i) ∧
     (∃ u, db.users data.userId = some u ∧
       (createOrder db data nm now).1.users data.userId =
         some { u with totalSpent := u.totalSpent + data.total,
                       lastPurchase := some now })) := by
  cases hres : (createOrder db data nm now).2 with
  | none => exact Or.inl (runTransaction_none hres)
  | some o' =>
      right
      have hco : createOrder db data nm now = ((createOrder db data nm now).1, some o') := by
        rw [← hres]
      obtain ⟨db1, o, db2, db3, hoc, hci, hup, hfo, hdb⟩ := createOrder_some hco
      obtain ⟨hid, huid, htot, ho1, hoi1, hp1, hu1, ha1, hn1⟩ := orderCreate_some hoc
      obtain ⟨ho2, hoi2, hu2, ha2, hn2, hprod2⟩ := createItems_some data.items db1 db2 hci
      obtain ⟨u, huser, ho3, hoi3, hp3, ha3, hn3, husers3⟩ := userPurchaseUpdate_some hup
      rw [hdb]
      refine ⟨?_, ?_, ?_⟩
      · intro pid
        refine ⟨-(qtyOfInputs data.items pid), ?_⟩
        rw [hp3, hprod2 pid, hp1]
        cases db.products pid with
        | none => simp
        | some p =>
            simp only [Option.map_some', Option.some.injEq, Product.mk.injEq]
            constructor <;> omega
      · intro i hi
        rw [husers3 i, if_neg hi, hu2, hu1]
      · refine ⟨u, ?_, ?_⟩
        · rw [← hu1, ← hu2]; exact huser
        · rw [husers3 data.userId, if_pos rfl]

theorem updateOrderStatus_some_stored {db : DB} {id : Nat} {d : OrderStatusUpdate}
    {now : Nat} {db' : DB} {r : Order}
    (h : updateOrderStatus db id d now = (db', some r)) :
    findOrder db' id = some r ∧ r.status = d.status ∧ r.id = id := by
  rcases updateOrderStatus_cases db id d now with ⟨_, heq⟩ | ⟨existing, hex, hbr⟩
  · rw [heq] at h
    simp at h
  · have hexid : existing.id = id := findOrder_id hex
    rcases hbr with ⟨_, _, heq⟩ | ⟨_, _, heq⟩ | ⟨_, _, heq⟩
    · rw [heq] at h
      rw [Prod.mk.injEq, Option.some.injEq] at h
      obtain ⟨hdb', hr⟩ := h
      subst hdb'
      subst hr
      exact ⟨findOrder_setOrder hex hexid, rfl, hexid⟩
    · rw [heq] at h
      have hbody := runTransaction_some h
      rw [Option.bind_eq_some'] at hbody
      obtain ⟨db2, hrs, hmap⟩ := hbody
      rw [Option.map_eq_some'] at hmap
      obtain ⟨rr, hfind, hpair⟩ := hmap
      rw [Prod.mk.injEq] at hpair
      obtain ⟨hd2, hrr⟩ := hpair
      obtain ⟨ho2, _, _, _, _, _⟩ := restockItems_some _ _ _ hrs
      have hoid : ({ applyStatusFields existing d with
          canceledAt := some now } : Order).id = id := hexid
      have hrr2 : rr = { applyStatusFields existing d with canceledAt := some now } := by
        rw [findOrder_congr_orders ho2, findOrder_setOrder hex hoid] at hfind
        exact (Option.some.inj hfind).symm
      subst hd2
      subst hrr
      subst hrr2
      exact ⟨hfind, rfl, hexid⟩
    · rw [heq] at h
      rw [Prod.mk.injEq, Option.some.injEq] at h
      obtain ⟨hdb', hr⟩ := h
      subst hdb'
      subst hr
      exact ⟨findOrder_setOrder hex hexid, rfl, hexid⟩

theorem filter_orderId_of_filter_not {l : List OrderItem} {id : Nat} :
    (l.filter (fun it => ¬ (it.orderId = id))).filter (fun it => it.orderId = id) = [] := by
  induction l with
  | nil => rfl
  | cons a t ih =>
      by_cases ha : a.orderId = id
      · simp [ha, ih]
      · simp [ha, ih]

theorem filter_orderId_map_mkOrderItem (id : Nat) (l : List OrderItemInput) :
    (l.map (mkOrderItem id)).filter (fun it => it.orderId = id) =
      l.map (mkOrderItem id) := by
  induction l with
  | nil => rfl
  | cons a t ih =>
      simp only [List.map_cons]
      rw [List.filter_cons_of_pos (by simp [mkOrderItem])]
      rw [ih]

theorem jsCeilDiv_spec (a b : Nat) (hb : 1 ≤ b) :
    a ≤ jsCeilDiv a b * b ∧ ∀ m, a ≤ m * b → jsCeilDiv a b ≤ m := by
  constructor
  · have h1 := Nat.div_add_mod (a + b - 1) b
    have h2 : (a + b - 1) % b < b := Nat.mod_lt _ (by omega)
    unfold jsCeilDiv
    rw [Nat.mul_comm]
    set X := b * ((a + b - 1) / b) with hX
    omega
  · intro m hm
    unfold jsCeilDiv
    rw [Nat.mul_comm] at hm
    have hd : a + b - 1 ≤ b * m + (b - 1) := by
      set Y := b * m with hY
      omega
    calc (a + b - 1) / b ≤ (b * m + (b - 1)) / b := Nat.div_le_div_right hd
      _ ≤ m := by
          rw [Nat.mul_add_div (by omega)]
          have hz : (b - 1) / b = 0 := Nat.div_eq_of_lt (by omega)
          omega

/-- Predicate on a workflow operation: a `createOrder` operation carries a
non-negative order total (updates carry no constraint). -/
def opTotalOk : WfOp → Prop
  | .create data _ _ => 0 ≤ data.total
  | .update _ _ => True
  | .updateStatus _ _ _ => True

instance (op : WfOp) : Decidable (opTotalOk op) :=
  match op with
  | .create data _ _ => inferInstanceAs (Decidable (0 ≤ data.total))
  | .update _ _ => inferInstanceAs (Decidable True)
  | .updateStatus _ _ _ => inferInstanceAs (Decidable True)

theorem applyOp_totalSpent_mono {db : DB} {op : WfOp} (hop : opTotalOk op) (uid : Nat)
    {u : User} (hu : db.users uid = some u) :
    ∃ u', (applyOp db op).users uid = some u' ∧ u.totalSpent ≤ u'.totalSpent := by
  cases op with
  | create data nm now =>
      rcases createOrder_fst_effects db data nm now with heq | ⟨_, hoff, w, hw, hw'⟩
      · refine ⟨u, ?_, le_refl _⟩
        show (createOrder db data nm now).1.users uid = some u
        rw [heq]
        exact hu
      · by_cases hi : uid = data.userId
        · subst hi
          have hwu : w = u := Option.some.inj (hw.symm.trans hu)
          subst hwu
          refine ⟨_, hw', ?_⟩
          have htot : (0 : Int) ≤ data.total := hop
          simp only
          omega
        · refine ⟨u, ?_, le_refl _⟩
          show (createOrder db data nm now).1.users uid = some u
          rw [hoff uid hi]
          exact hu
  | update id d =>
      refine ⟨u, ?_, le_refl _⟩
      show (updateOrder db id d).1.users uid = some u
      rw [(updateOrder_fst_effects db id d).1]
      exact hu
  | updateStatus id d now =>
      refine ⟨u, ?_, le_refl _⟩
      show (updateOrderStatus db id d now).1.users uid = some u
      rw [(updateOrderStatus_fst_effects db id d now).1]
      exact hu

theorem applyOps_totalSpent_mono :
    ∀ (ops : List WfOp) (db : DB) (uid : Nat) (u : User),
      (∀ op ∈ ops, opTotalOk op) → db.users uid = some u →
      ∃ u', (applyOps db ops).users uid = some u' ∧ u.totalSpent ≤ u'.totalSpent := by
  intro ops
  induction ops with
  | nil => intro db uid u _ hu; exact ⟨u, hu, le_refl _⟩
  | cons op rest ih =>
      intro db uid u hops hu
      obtain ⟨u1, hu1, hle1⟩ := applyOp_totalSpent_mono (hops op (by simp)) uid hu
      obtain ⟨u2, hu2, hle2⟩ :=
        ih (applyOp db op) uid u1 (fun o ho => hops o (by simp [ho])) hu1
      exact ⟨u2, hu2, le_trans hle1 hle2⟩

/-! ### Claim theorems -/

/-- C1: for every successful createOrder call and every line item in its input,
an OrderItem is stored for the new order with total
`(unitPrice - discount) * quantity`, and each referenced product's stock is
decremented (and its soldCount incremented) by the quantity the loop applies
for its line items — the sum of their quantities, which is exactly the single
item's quantity whenever the items reference pairwise-distinct products. -/
theorem createOrder_line_item_effects (db : DB) (data : OrderInput) (nm : String)
    (now : Nat) (h : (createOrder db data nm now).2.isSome = true) :
    (∀ item ∈ data.items,
      mkOrderItem db.nextOrderId item ∈ (createOrder db data nm now).1.orderItems ∧
      (mkOrderItem db.nextOrderId item).total =
        (item.unitPrice - item.discount) * item.quantity) ∧
    (∀ pid, (createOrder db data nm now).1.products pid =
      (db.products pid).map (fun p =>
        ⟨p.stock - qtyOfInputs data.items pid,
         p.soldCount + qtyOfInputs data.items pid⟩)) ∧
    ((data.items.map (fun it => it.productId)).Nodup →
      ∀ item ∈ data.items,
        (createOrder db data nm now).1.products item.productId =
          (db.products item.productId).map (fun p =>
            ⟨p.stock - item.quantity, p.soldCount + item.quantity⟩)) := by
  obtain ⟨o', hres⟩ := Option.isSome_iff_exists.mp h
  have hco : createOrder db data nm now = ((createOrder db data nm now).1, some o') := by
    rw [← hres]
  obtain ⟨db1, o, db2, db3, hoc, hci, hup, hfo, hdb⟩ := createOrder_some hco
  obtain ⟨hid, huid, htot, ho1, hoi1, hp1, hu1, ha1, hn1⟩ := orderCreate_some hoc
  obtain ⟨ho2, hoi2, hu2, ha2, hn2, hprod2⟩ := createItems_some data.items db1 db2 hci
  obtain ⟨u, huser, ho3, hoi3, hp3, ha3, hn3, husers3⟩ := userPurchaseUpdate_some hup
  have hprodFinal : ∀ pid, (createOrder db data nm now).1.products pid =
      (db.products pid).map (fun p =>
        ⟨p.stock - qtyOfInputs data.items pid,
         p.soldCount + qtyOfInputs data.items pid⟩) := by
    intro pid
    rw [hdb, hp3, hprod2 pid, hp1]
  refine ⟨?_, hprodFinal, ?_⟩
  · intro item hitem
    refine ⟨?_, rfl⟩
    rw [hdb, hoi3, hoi2, hoi1, hid]
    exact List.mem_append_right _ (List.mem_map_of_mem _ hitem)
  · intro hnodup item hitem
    rw [hprodFinal item.productId, qtyOfInputs_nodup hnodup item hitem]

/-- C2: a call of updateOrderStatus that moves an order whose previous status is
not CANCELED into CANCELED is one atomic unit of work: either nothing at all is
written, or the stored order has `canceledAt = now` and status CANCELED and
every line item's inventory effect is reversed — each product's stock grows
(and its soldCount shrinks) by the summed quantity of the order's items
referencing it. -/
theorem updateOrderStatus_cancel_restock (db : DB) (id : Nat) (d : OrderStatusUpdate)
    (now : Nat) (existing : Order) (hex : findOrder db id = some existing)
    (hst : d.status = OrderStatus.CANCELED)
    (hprev : existing.status ≠ OrderStatus.CANCELED) :
    ((updateOrderStatus db id d now).2 = none ∧ (updateOrderStatus db id d now).1 = db) ∨
    (∃ r, (updateOrderStatus db id d now).2 = some r ∧
      r.status = OrderStatus.CANCELED ∧ r.canceledAt = some now ∧
      findOrder (updateOrderStatus db id d now).1 id = some r ∧
      ∀ pid, (updateOrderStatus db id d now).1.products pid =
        (db.products pid).map (fun p =>
          ⟨p.stock + qtyOfItems (itemsOf db id) pid,
           p.soldCount - qtyOfItems (itemsOf db id) pid⟩)) := by
  rcases updateOrderStatus_cases db id d now with ⟨hnone, _⟩ | ⟨ex, hex2, hbr⟩
  · rw [hex] at hnone
    cases hnone
  · have hexx : ex = existing := Option.some.inj (hex2.symm.trans hex)
    subst hexx
    have hexid : ex.id = id := findOrder_id hex
    rcases hbr with ⟨hd, _, _⟩ | ⟨_, _, heq⟩ | ⟨_, hn2, _⟩
    · rw [hst] at hd
      cases hd
    · have hoid : ({ applyStatusFields ex d with
          canceledAt := some now } : Order).id = id := hexid
      cases hb : restockItems (itemsOf db id)
          (setOrder db id { applyStatusFields ex d with canceledAt := some now }) with
      | none =>
          left
          rw [heq]
          unfold runTransaction
          simp [hb]
      | some db2 =>
          right
          obtain ⟨ho2, hoi2, hu2, ha2, hn2', hprod2⟩ := restockItems_some _ _ _ hb
          have hfind2 : findOrder db2 id =
              some { applyStatusFields ex d with canceledAt := some now } := by
            rw [findOrder_congr_orders ho2]
            exact findOrder_setOrder hex hoid
          have hrun : updateOrderStatus db id d now =
              (db2, some { applyStatusFields ex d with canceledAt := some now }) := by
            rw [heq]
            unfold runTransaction
            simp [hb, hfind2]
          refine ⟨{ applyStatusFields ex d with canceledAt := some now },
            by rw [hrun], hst, rfl, by rw [hrun]; exact hfind2, ?_⟩
          intro pid
          rw [hrun]
          exact hprod2 pid
    · exact absurd ⟨hst, hprev⟩ hn2

/-- C3: for every createOrder call, if any step of the atomic unit of work
fails, no write of that call is observable afterwards — the resulting state is
exactly the initial state (full rollback: no order row, no order items, no
stock/soldCount change, no totalSpent change). -/
theorem createOrder_rollback_on_failure (db : DB) (data : OrderInput) (nm : String)
    (now : Nat) (h : (createOrder db data nm now).2 = none) :
    (createOrder db data nm now).1 = db := by
  unfold createOrder at h ⊢
  exact runTransaction_none h

/-- C4: repeating a transition into the same terminal status S (DELIVERED or
CANCELED) is idempotent: given a first successful call, a second call with the
same status performs no inventory adjustment (the product table is unchanged)
and does not re-stamp `completedAt`/`canceledAt` on the stored order. -/
theorem updateOrderStatus_idempotent_terminal (db : DB) (id : Nat)
    (d : OrderStatusUpdate) (now1 now2 : Nat)
    (_hS : d.status = OrderStatus.DELIVERED ∨ d.status = OrderStatus.CANCELED)
    (h1 : (updateOrderStatus db id d now1).2.isSome = true) :
    (updateOrderStatus (updateOrderStatus db id d now1).1 id d now2).1.products =
      (updateOrderStatus db id d now1).1.products ∧
    (findOrder (updateOrderStatus (updateOrderStatus db id d now1).1 id d now2).1 id).map
        (fun o => (o.completedAt, o.canceledAt)) =
      (findOrder (updateOrderStatus db id d now1).1 id).map
        (fun o => (o.completedAt, o.canceledAt)) := by
  obtain ⟨r1, hres1⟩ := Option.isSome_iff_exists.mp h1
  have hco1 : updateOrderStatus db id d now1 =
      ((updateOrderStatus db id d now1).1, some r1) := by
    rw [← hres1]
  obtain ⟨hfind1, hst1, hid1⟩ := updateOrderStatus_some_stored hco1
  rcases updateOrderStatus_cases (updateOrderStatus db id d now1).1 id d now2 with
    ⟨hnone, _⟩ | ⟨ex2, hex2, hbr⟩
  · rw [hfind1] at hnone
    cases hnone
  · have hex2r : ex2 = r1 := Option.some.inj (hex2.symm.trans hfind1)
    subst hex2r
    rcases hbr with ⟨hd, hne, _⟩ | ⟨hd, hne, _⟩ | ⟨_, _, heq2⟩
    · exact absurd (hst1.trans hd) hne
    · exact absurd (hst1.trans hd) hne
    · have happid : (applyStatusFields ex2 d).id = id := hid1
      rw [heq2]
      refine ⟨rfl, ?_⟩
      rw [show (setOrder (updateOrderStatus db id d now1).1 id
            (applyStatusFields ex2 d), some (applyStatusFields ex2 d)).1 =
          setOrder (updateOrderStatus db id d now1).1 id (applyStatusFields ex2 d)
          from rfl]
      rw [findOrder_setOrder hfind1 happid, hfind1]
      rfl

/-- C5: an updateOrder call that supplies a non-empty replacement item list and
succeeds leaves exactly the new items (with computed totals) as the order's
items, reverses the inventory effect of every former item and applies the
effect of every new one — per product the stock changes by old-quantity-sum
minus new-quantity-sum and soldCount by the opposite; supplying an empty item
list leaves the item table and all product counters untouched. -/
theorem updateOrder_item_replacement (db : DB) (id : Nat) (d : OrderUpdateInput) :
    (∀ newItems r, d.items = some newItems → newItems ≠ [] →
      (updateOrder db id d).2 = some r →
        itemsOf (updateOrder db id d).1 id = newItems.map (mkOrderItem id) ∧
        (∀ it ∈ newItems, (mkOrderItem id it).total =
          (it.unitPrice - it.discount) * it.quantity) ∧
        (∀ pid, (updateOrder db id d).1.products pid = (db.products pid).map (fun p =>
          ⟨p.stock + qtyOfItems (itemsOf db id) pid - qtyOfInputs newItems pid,
           p.soldCount - qtyOfItems (itemsOf db id) pid + qtyOfInputs newItems pid⟩))) ∧
    (d.items = some [] →
      (updateOrder db id d).1.orderItems = db.orderItems ∧
      (updateOrder db id d).1.products = db.products) := by
  constructor
  · intro newItems r hi hne hres
    have hco : updateOrder db id d = ((updateOrder db id d).1, some r) := by
      rw [← hres]
    obtain ⟨existing, hex, hbody⟩ := updateOrder_some hco
    obtain ⟨hfind, horders, hu, ha, hn, hdisj⟩ := updateOrderBody_some hbody
    rcases hdisj with ⟨ni, hni, hnine, hoi, hprod⟩ | ⟨hcase, _, _⟩
    · have hnin : ni = newItems := Option.some.inj (hni.symm.trans hi)
      subst hnin
      refine ⟨?_, fun it _ => rfl, hprod⟩
      unfold itemsOf
      rw [hoi, List.filter_append, filter_orderId_of_filter_not,
        filter_orderId_map_mkOrderItem, List.nil_append]
    · rcases hcase with hnone | hnil
      · rw [hi] at hnone
        cases hnone
      · exact absurd (Option.some.inj (hi.symm.trans hnil)) hne
  · intro hi
    cases hex : findOrder db id with
    | none =>
        have : updateOrder db id d = (db, none) := by
          unfold updateOrder
          simp [hex]
        rw [this]
        exact ⟨rfl, rfl⟩
    | some existing =>
        have happid : (applyOrderUpdate existing d).id = id := by
          show existing.id = id
          exact findOrder_id hex
        have hbody : updateOrderBody id d existing (itemsOf db id) db =
            some (setOrder db id (applyOrderUpdate existing d),
                  applyOrderUpdate existing d) := by
          unfold updateOrderBody
          rw [hi]
          simp only [List.length_nil, gt_iff_lt, Nat.lt_irrefl, if_false,
            Option.some_bind]
          rw [findOrder_setOrder hex happid]
          rfl
        have hrun : updateOrder db id d =
            (setOrder db id (applyOrderUpdate existing d),
             some (applyOrderUpdate existing d)) := by
          unfold updateOrder
          simp only [hex]
          unfold runTransaction
          rw [hbody]
        rw [hrun]
        exact ⟨rfl, rfl⟩

/-- C6: an id that resolves to no order gives a null result from getOrderById,
and updateOrder/updateOrderStatus return null while performing no write at all
— the returned state is exactly the input state. -/
theorem notFound_returns_null_no_writes (db : DB) (id : Nat) (d : OrderUpdateInput)
    (sd : OrderStatusUpdate) (now : Nat) (h : findOrder db id = none) :
    getOrderById db id = none ∧
    updateOrder db id d = (db, none) ∧
    updateOrderStatus db id sd now = (db, none) := by
  refine ⟨h, ?_, ?_⟩
  · unfold updateOrder
    simp [h]
  · unfold updateOrderStatus
    simp [h]

/-- C7: every successful createOrder call increments the owning user's
totalSpent by exactly the input's total and stamps lastPurchase with the
current time, inside the same atomic unit of work as the order insert. -/
theorem createOrder_updates_user_totals (db : DB) (data : OrderInput) (nm : String)
    (now : Nat) (h : (createOrder db data nm now).2.isSome = true) :
    (createOrder db data nm now).1.users data.userId =
      (db.users data.userId).map (fun u =>
        { u with totalSpent := u.totalSpent + data.total,
                 lastPurchase := some now }) := by
  obtain ⟨o', hres⟩ := Option.isSome_iff_exists.mp h
  have hco : createOrder db data nm now = ((createOrder db data nm now).1, some o') := by
    rw [← hres]
  obtain ⟨db1, o, db2, db3, hoc, hci, hup, hfo, hdb⟩ := createOrder_some hco
  obtain ⟨hid, huid, htot, ho1, hoi1, hp1, hu1, ha1, hn1⟩ := orderCreate_some hoc
  obtain ⟨ho2, hoi2, hu2, ha2, hn2, hprod2⟩ := createItems_some data.items db1 db2 hci
  obtain ⟨u, huser, ho3, hoi3, hp3, ha3, hn3, husers3⟩ := userPurchaseUpdate_some hup
  have hdbu : db.users data.userId = some u := by
    rw [← hu1, ← hu2]
    exact huser
  rw [hdb, husers3 data.userId, if_pos rfl, hdbu]
  rfl

/-- C8: over any sequence of workflow operations whose createOrder inputs all
carry a non-negative total, a user's totalSpent never decreases; moreover
updateOrder and updateOrderStatus (cancellation included) never modify the
user table at all — totalSpent and lastPurchase are untouched by them. -/
theorem totalSpent_monotone (db : DB) (ops : List WfOp) (uid : Nat) (u : User)
    (hops : ∀ op ∈ ops, opTotalOk op) (hu : db.users uid = some u) :
    (∃ u', (applyOps db ops).users uid = some u' ∧ u.totalSpent ≤ u'.totalSpent) ∧
    (∀ id d, (updateOrder db id d).1.users = db.users) ∧
    (∀ id sd now, (updateOrderStatus db id sd now).1.users = db.users) := by
  exact ⟨applyOps_totalSpent_mono ops db uid u hops hu,
    fun id d => (updateOrder_fst_effects db id d).1,
    fun id sd now => (updateOrderStatus_fst_effects db id sd now).1⟩

/-- C9: getOrders performs no write and returns, for page `p ≥ 1` and page size
`limit ≥ 1`, the matching orders after skipping `(p - 1) * limit` of them and
taking at most `limit`, with metadata total = number of matching rows,
page = p, limit, and pages = the least n with total ≤ n * limit, i.e.
`ceil(total / limit)`; the filter treats an absent date bound as unbounded on
that side and an absent search term as no text filter — it is the independent
conjunction of the search, status, lower-date and upper-date criteria. -/
theorem getOrders_pagination_and_filters (db : DB) (f : OrderFilters)
    (_hp : 1 ≤ f.page) (hl : 1 ≤ f.limit) :
    (getOrders db f).1 = db ∧
    (getOrders db f).2.data =
      ((db.orders.filter (wherePred db f)).drop ((f.page - 1) * f.limit)).take f.limit ∧
    (getOrders db f).2.pagemeta.total = (db.orders.filter (wherePred db f)).length ∧
    (getOrders db f).2.pagemeta.page = f.page ∧
    (getOrders db f).2.pagemeta.limit = f.limit ∧
    ((db.orders.filter (wherePred db f)).length ≤
        (getOrders db f).2.pagemeta.pages * f.limit ∧
      ∀ m : Nat, (db.orders.filter (wherePred db f)).length ≤ m * f.limit →
        (getOrders db f).2.pagemeta.pages ≤ m) ∧
    (∀ o : Order, wherePred db f o =
      ((match f.search with
        | some s => if s = "" then true else searchMatches db s o
        | none => true) &&
       (match f.status with
        | some st => decide (o.status = st)
        | none => true) &&
       (match f.startDate with
        | some sd => decide (sd ≤ o.createdAt)
        | none => true) &&
       (match f.endDate with
        | some ed => decide (o.createdAt ≤ ed)
        | none => true))) := by
  refine ⟨rfl, rfl, rfl, rfl, rfl, ?_, ?_⟩
  · exact jsCeilDiv_spec (db.orders.filter (wherePred db f)).length f.limit hl
  · intro o
    unfold wherePred
    cases f.startDate <;> cases f.endDate <;> simp [Bool.and_assoc]

/-- C10: every single workflow operation applies equal and opposite quantities
to a product's stock and soldCount, so the sum stock + soldCount of every
product is left unchanged by every operation of the Order Workflow Engine. -/
theorem stock_plus_soldCount_conserved (db : DB) (op : WfOp) (pid : Nat) :
    ((applyOp db op).products pid).map (fun p => p.stock + p.soldCount) =
      (db.products pid).map (fun p => p.stock + p.soldCount) := by
  cases op with
  | create data nm now =>
      show (((createOrder db data nm now).1).products pid).map _ = _
      rcases createOrder_fst_effects db data nm now with heq | ⟨hprod, _, _⟩
      · rw [heq]
      · obtain ⟨q, hq⟩ := hprod pid
        rw [hq]
        cases db.products pid with
        | none => rfl
        | some p =>
            simp only [Option.map_some', Option.some.injEq]
            omega
  | update id d =>
      show (((updateOrder db id d).1).products pid).map _ = _
      obtain ⟨q, hq⟩ := (updateOrder_fst_effects db id d).2 pid
      rw [hq]
      cases db.products pid with
      | none => rfl
      | some p =>
          simp only [Option.map_some', Option.some.injEq]
          omega
  | updateStatus id d now =>
      show (((updateOrderStatus db id d now).1).products pid).map _ = _
      obtain ⟨q, hq⟩ := (updateOrderStatus_fst_effects db id d now).2.2 pid
      rw [hq]
      cases db.products pid with
      | none => rfl
      | some p =>
          simp only [Option.map_some', Option.some.injEq]
          omega

/-! ### Concrete sample data, used to witness the claim theorems -/

/-- Sample product table: product 1 with stock 10, product 2 with stock 5. -/
def wProducts : Nat → Option Product := fun i =>
  if i = 1 then some ⟨10, 0⟩ else if i = 2 then some ⟨5, 1⟩ else none

/-- Sample user table: a single customer with id 1 and totalSpent 100. -/
def wUsers : Nat → Option User := fun i =>
  if i = 1 then some ⟨"Alice", "alice@example.com", 100, none⟩ else none

/-- Sample address table: addresses 1 and 2 exist. -/
def wAddresses : Nat → Bool := fun i => decide (i = 1) || decide (i = 2)

/-- Sample empty store with the tables above. -/
def wDB : DB :=
  { orders := [], orderItems := [], products := wProducts, users := wUsers,
    addresses := wAddresses, nextOrderId := 1 }

/-- Line item input: 2 units of product 1 at 10 with discount 1. -/
def wItem1 : OrderItemInput :=
  { productId := 1, variantId := none, quantity := 2, unitPrice := 10, discount := 1,
    notes := none }

/-- Line item input: 1 unit of product 2 at 5. -/
def wItem2 : OrderItemInput :=
  { productId := 2, variantId := none, quantity := 1, unitPrice := 5, discount := 0,
    notes := none }

/-- Line item input referencing a product id (9) that does not exist. -/
def wItemMissing : OrderItemInput :=
  { productId := 9, variantId := none, quantity := 1, unitPrice := 3, discount := 0,
    notes := none }

/-- An order input for user 1 with the given items. -/
def wInput (items : List OrderItemInput) : OrderInput :=
  { userId := 1, subtotal := 25, discountTotal := 2, shippingTotal := 0, taxTotal := 0,
    total := 23, status := none, paymentMethod := "PIX", paymentStatus := none,
    notes := none, billingAddressId := 1, shippingAddressId := 2,
    items := items, createdById := none }

/-- A stored PENDING order with id 1. -/
def wOrder : Order :=
  { id := 1, orderNumber := "ORD-1700000000000-AAAABBBB", userId := 1, subtotal := 25,
    discountTotal := 2, shippingTotal := 0, taxTotal := 0, total := 23,
    status := .PENDING, paymentMethod := "PIX", paymentStatus := .PENDING,
    notes := none, trackingNumber := none, shippingCarrier := none,
    estimatedDelivery := none, billingAddressId := 1, shippingAddressId := 2,
    createdById := none, createdAt := 0, completedAt := none, canceledAt := none }

/-- Stored line item of order 1 against product 1. -/
def wOrderItemA : OrderItem :=
  { orderId := 1, productId := 1, variantId := none, quantity := 2, unitPrice := 10,
    discount := 1, total := 18, notes := none }

/-- Stored line item of order 1 against product 2. -/
def wOrderItemB : OrderItem :=
  { orderId := 1, productId := 2, variantId := none, quantity := 1, unitPrice := 5,
    discount := 0, total := 5, notes := none }

/-- Sample store holding the PENDING order 1 with its two line items. -/
def wOrderDB : DB :=
  { orders := [wOrder], orderItems := [wOrderItemA, wOrderItemB], products := wProducts,
    users := wUsers, addresses := wAddresses, nextOrderId := 2 }

/-- Status update input moving an order to CANCELED. -/
def wCancel : OrderStatusUpdate :=
  { status := .CANCELED, trackingNumber := none, shippingCarrier := none,
    estimatedDelivery := none, notes := none }

/-- Partial update input replacing the item list with `[wItem2]`. -/
def wReplace : OrderUpdateInput :=
  { subtotal := none, discountTotal := none, shippingTotal := none, taxTotal := none,
    total := none, status := none, paymentMethod := none, paymentStatus := none,
    notes := none, billingAddressId := none, shippingAddressId := none,
    items := some [wItem2] }

/-- A sample operation sequence: create an order, then cancel order 1. -/
def wOps : List WfOp :=
  [WfOp.create (wInput [wItem1]) "ORD-X" 3, WfOp.updateStatus 1 wCancel 4]

/-! ### Witnesses -/

theorem createOrder_line_item_effects_witness :
    (createOrder wDB (wInput [wItem1, wItem2]) "ORD-N" 7).2.isSome = true ∧
    (createOrder wDB (wInput [wItem1, wItem2]) "ORD-N" 7).1.products 1 =
      (wDB.products 1).map (fun p =>
        ⟨p.stock - qtyOfInputs (wInput [wItem1, wItem2]).items 1,
         p.soldCount + qtyOfInputs (wInput [wItem1, wItem2]).items 1⟩) :=
  ⟨by decide,
   (createOrder_line_item_effects wDB (wInput [wItem1, wItem2]) "ORD-N" 7 (by decide)).2.1 1⟩

theorem updateOrderStatus_cancel_restock_witness :
    (findOrder wOrderDB 1 = some wOrder ∧ wCancel.status = OrderStatus.CANCELED ∧
      wOrder.status ≠ OrderStatus.CANCELED) ∧
    (((updateOrderStatus wOrderDB 1 wCancel 3).2 = none ∧
        (updateOrderStatus wOrderDB 1 wCancel 3).1 = wOrderDB) ∨
     (∃ r, (updateOrderStatus wOrderDB 1 wCancel 3).2 = some r ∧
        r.status = OrderStatus.CANCELED ∧ r.canceledAt = some 3 ∧
        findOrder (updateOrderStatus wOrderDB 1 wCancel 3).1 1 = some r ∧
        ∀ pid, (updateOrderStatus wOrderDB 1 wCancel 3).1.products pid =
          (wOrderDB.products pid).map (fun p =>
            ⟨p.stock + qtyOfItems (itemsOf wOrderDB 1) pid,
             p.soldCount - qtyOfItems (itemsOf wOrderDB 1) pid⟩))) :=
  ⟨⟨by decide, by decide, by decide⟩,
   updateOrderStatus_cancel_restock wOrderDB 1 wCancel 3 wOrder (by decide) (by decide)
     (by decide)⟩

theorem createOrder_rollback_on_failure_witness :
    (createOrder wDB (wInput [wItem1, wItemMissing]) "ORD-F" 5).2 = none ∧
    (createOrder wDB (wInput [wItem1, wItemMissing]) "ORD-F" 5).1 = wDB :=
  ⟨by decide,
   createOrder_rollback_on_failure wDB (wInput [wItem1, wItemMissing]) "ORD-F" 5
     (by decide)⟩

theorem updateOrderStatus_idempotent_terminal_witness :
    ((wCancel.status = OrderStatus.DELIVERED ∨ wCancel.status = OrderStatus.CANCELED) ∧
      (updateOrderStatus wOrderDB 1 wCancel 5).2.isSome = true) ∧
    ((updateOrderStatus (updateOrderStatus wOrderDB 1 wCancel 5).1 1 wCancel 9).1.products =
        (updateOrderStatus wOrderDB 1 wCancel 5).1.products ∧
     (findOrder (updateOrderStatus
          (updateOrderStatus wOrderDB 1 wCancel 5).1 1 wCancel 9).1 1).map
        (fun o => (o.completedAt, o.canceledAt)) =
      (findOrder (updateOrderStatus wOrderDB 1 wCancel 5).1 1).map
        (fun o => (o.completedAt, o.canceledAt))) :=
  ⟨⟨by decide, by decide⟩,
   updateOrderStatus_idempotent_terminal wOrderDB 1 wCancel 5 9 (by decide) (by decide)⟩

theorem updateOrder_item_replacement_witness :
    (wReplace.items = some [wItem2] ∧ [wItem2] ≠ [] ∧
      (updateOrder wOrderDB 1 wReplace).2 = some wOrder) ∧
    itemsOf (updateOrder wOrderDB 1 wReplace).1 1 = [wItem2].map (mkOrderItem 1) :=
  ⟨⟨by decide, by decide, by decide⟩,
   ((updateOrder_item_replacement wOrderDB 1 wReplace).1 [wItem2] wOrder (by decide)
     (by decide) (by decide)).1⟩

theorem notFound_returns_null_no_writes_witness :
    findOrder wOrderDB 7 = none ∧
    (getOrderById wOrderDB 7 = none ∧
     updateOrder wOrderDB 7 wReplace = (wOrderDB, none) ∧
     updateOrderStatus wOrderDB 7 wCancel 4 = (wOrderDB, none)) :=
  ⟨by decide,
   notFound_returns_null_no_writes wOrderDB 7 wReplace wCancel 4 (by decide)⟩

theorem createOrder_updates_user_totals_witness :
    (createOrder wDB (wInput [wItem1]) "ORD-U" 9).2.isSome = true ∧
    (createOrder wDB (wInput [wItem1]) "ORD-U" 9).1.users (wInput [wItem1]).userId =
      (wDB.users (wInput [wItem1]).userId).map (fun u =>
        { u with totalSpent := u.totalSpent + (wInput [wItem1]).total,
                 lastPurchase := some 9 }) :=
  ⟨by decide,
   createOrder_updates_user_totals wDB (wInput [wItem1]) "ORD-U" 9 (by decide)⟩

theorem totalSpent_monotone_witness :
    ((∀ op ∈ wOps, opTotalOk op) ∧
      wDB.users 1 = some ⟨"Alice", "alice@example.com", 100, none⟩) ∧
    (∃ u', (applyOps wDB wOps).users 1 = some u' ∧
      (⟨"Alice", "alice@example.com", 100, none⟩ : User).totalSpent ≤ u'.totalSpent) :=
  ⟨⟨by decide, by decide⟩,
   (totalSpent_monotone wDB wOps 1 ⟨"Alice", "alice@example.com", 100, none⟩
     (by decide) (by decide)).1⟩

/-- Filter input: no search, no status, no date bounds, first page of size 2. -/
def wFilters : OrderFilters :=
  { search := none, status := none, startDate := none, endDate := none,
    sortBy := "createdAt", sortOrderAsc := true, page := 1, limit := 2 }

theorem getOrders_pagination_and_filters_witness :
    (1 ≤ wFilters.page ∧ 1 ≤ wFilters.limit) ∧
    (getOrders wOrderDB wFilters).2.data =
      ((wOrderDB.orders.filter (wherePred wOrderDB wFilters)).drop
        ((wFilters.page - 1) * wFilters.limit)).take wFilters.limit :=
  ⟨⟨by decide, by decide⟩,
   (getOrders_pagination_and_filters wOrderDB wFilters (by decide) (by decide)).2.1⟩

end Metamorfosis
